import Mathlib

/-!
Shallow embedding of the gclp command-line parser (src/gclp.hpp) in Lean 4.

The C++ source is a header-only, compile-time-typed command-line parser.
Its heterogeneous parameter tuple is embedded here as a list of descriptors
over a closed universe of value types (bool / int / string), which covers
every type the claims exercise.  Character strings are embedded as
`List Char`; `std::bitset` is embedded as `Nat` used as a bitset;
the parser's scratch `std::stringstream` is embedded as a `List Char`
buffer with functional reads.  Loops over the parameter tuple
(`detail::tuple_for_each` with a mutable index) are embedded as `foldl`
over the descriptor list carrying the index, and the two genuinely
iterative algorithms (`detail::split_words` and the token loop of
`parse_impl`) are embedded with an explicit fuel argument initialised to
the input length, which strictly bounds their iteration count.
-/

namespace Gclp

/-- Embeds `detail::dash<CharT>()` : the '-' character. -/
def dash : Char := '-'

/-- Embeds `detail::stream_delim<CharT>()` : the ' ' delimiter. -/
def stream_delim : Char := Char.ofNat 32

/-- Embeds `detail::single_quote<CharT>()`. -/
def single_quote : Char := Char.ofNat 39

/-- Embeds `detail::double_quote<CharT>()`. -/
def double_quote : Char := Char.ofNat 34

/-- Embeds `detail::char_escape<CharT>()` : the backslash. -/
def char_escape : Char := Char.ofNat 92

/-- Embeds `detail::is_single_dashed`: size > 1, w[0] == '-', w[1] != '-'. -/
def is_single_dashed (w : List Char) : Bool :=
  decide (w.length > 1) && (w.getD 0 stream_delim == dash)
    && !(w.getD 1 stream_delim == dash)

/-- Embeds `detail::is_key`: size 1 is never a key; size > 2 requires
w[0] == '-' and w[2] != '-'; otherwise (size 2) requires w[0] == '-' and
w[1] != '-'.  (The source never calls it on an empty word; the `getD`
defaults only ever matter there.) -/
def is_key (w : List Char) : Bool :=
  if w.length = 1 then
    false
  else if w.length > 2 then
    (w.getD 0 stream_delim == dash) && !(w.getD 2 stream_delim == dash)
  else
    (w.getD 0 stream_delim == dash) && !(w.getD 1 stream_delim == dash)

/-- Embeds `detail::is_complex_key`: single-dashed and size > 2. -/
def is_complex_key (w : List Char) : Bool :=
  is_single_dashed w && decide (w.length > 2)

/-- Embeds `detail::remove_dash`: strip leading '-' characters. -/
def remove_dash (w : List Char) : List Char :=
  w.dropWhile (fun c => c == dash)

/-- Embeds the `new_delim` lambda of `detail::split_words`: a quote
character becomes the new delimiter, anything else restores the space. -/
def new_delim (c : Char) : Char :=
  if c == single_quote then single_quote
  else if c == double_quote then double_quote
  else stream_delim

/-- One-to-one embedding of the `for` loop of `detail::split_words`.
State per iteration: remaining input, current delimiter, pending-escape
flag, words emitted so far.  Each loop iteration consumes at least one
character, so `fuel := input length` bounds the iteration count; when the
input is exhausted both the fuel-0 case and the nil case return `acc`
exactly as the loop's exit does. -/
def split_words_go : Nat → List Char → Char → Bool → List (List Char) →
    List (List Char)
  | 0, _, _, _, acc => acc
  | _ + 1, [], _, _, acc => acc
  | fuel + 1, c :: rest, delim, esc, acc =>
    -- jump escape sequence
    if esc then split_words_go fuel rest delim false acc
    -- check escape sequence
    else if c == char_escape then split_words_go fuel rest delim true acc
    else
      -- it_first = find_if_not(it_first, it_last, is_delim)
      let l1 := (c :: rest).dropWhile (fun x => x == delim)
      match l1 with
      | [] => acc
      | c1 :: t1 =>
        -- delim = new_delim(*it_first); skip the (possibly new) delimiter
        let d1 := new_delim c1
        let l2 := (c1 :: t1).dropWhile (fun x => x == d1)
        match l2 with
        | [] => acc
        | c2 :: t2 =>
          -- it_split_last = find_if(it_first, it_last, is_delim); emit word
          let word := (c2 :: t2).takeWhile (fun x => !(x == d1))
          let l3 := (c2 :: t2).dropWhile (fun x => !(x == d1))
          let acc1 := acc ++ [word]
          match l3 with
          | [] => acc1
          | _ :: l3t =>
            -- delim = new_delim(*it_first); it_first = it_split_last; ++it_first
            split_words_go fuel l3t (new_delim c2) false acc1

/-- Embeds `detail::split_words`: initial delimiter is the space, no
pending escape, empty output. -/
def split_words (s : List Char) : List (List Char) :=
  split_words_go s.length s stream_delim false []

/-! ## Value universe

The C++ parameter tuple is heterogeneous over arbitrary value types; the
claims only exercise `bool`, `int` and `std::basic_string`, so the
embedding closes the universe over those three. -/

/-- The target value type of a parameter descriptor. -/
inductive VType
  | tBool
  | tInt
  | tStr
deriving DecidableEq

/-- A value held by a parameter descriptor or a result-tuple slot. -/
inductive PValue
  | vBool : Bool → PValue
  | vInt : Int → PValue
  | vStr : List Char → PValue
deriving DecidableEq

/-- The value type's zero/empty state, used by `container::update_cache`
for a descriptor with neither a value nor a default
(`return value_type{};`). -/
def zero_value : VType → PValue
  | VType.tBool => PValue.vBool false
  | VType.tInt => PValue.vInt 0
  | VType.tStr => PValue.vStr []

/-- A key handed to the verifier/assigner: the `char_type` overloads take
a short key, the `string_view_type` overloads a long key. -/
inductive key_t
  | short : Char → key_t
  | long : List Char → key_t
deriving DecidableEq

/-! ## Parameter descriptor (`basic_cl_param`) -/

/-- Embeds `gclp::basic_cl_param` (with the static `basic_required` /
`basic_optional` tag flattened into the `required` field and the element
type into `vtype`). -/
structure basic_cl_param where
  key_chars : List Char
  key_strs : List (List Char)
  vtype : VType
  required : Bool
  defval : Option PValue
  val : Option PValue
  fail : Bool
deriving DecidableEq

/-- Embeds `basic_cl_param::has_value`. -/
def basic_cl_param.has_value (p : basic_cl_param) : Bool :=
  p.val.isSome || p.defval.isSome

/-- Embeds `basic_cl_param::has_defval`. -/
def basic_cl_param.has_defval (p : basic_cl_param) : Bool :=
  p.defval.isSome

/-- Embeds `basic_cl_param::value`: prefers the current value over the
default.  (The source asserts `has_value()`; the `zero_value` fallback is
unreachable under that precondition.) -/
def basic_cl_param.value (p : basic_cl_param) : PValue :=
  match p.val with
  | some v => v
  | none => p.defval.getD (zero_value p.vtype)

/-- Embeds both `basic_cl_param::contains` overloads. -/
def basic_cl_param.contains (p : basic_cl_param) : key_t → Bool
  | key_t.short c => p.key_chars.contains c
  | key_t.long s => p.key_strs.contains s

/-- Embeds the value-compatible `basic_cl_param::assign` overloads:
rejected while the fail flag is set, otherwise stores the value. -/
def basic_cl_param.assign (p : basic_cl_param) (v : PValue) : basic_cl_param :=
  if p.fail then p else { p with val := some v }

/-- Embeds `basic_cl_param::clear`: resets only the failure status. -/
def basic_cl_param.clear (p : basic_cl_param) : basic_cl_param :=
  { p with fail := false }

/-! ## Indexed loops over the parameter tuple

`detail::tuple_for_each` with a mutable index counter `i = 0` in the
lambda is embedded as a left fold carrying `(accumulator, index)`. -/

/-- A `tuple_for_each` loop whose lambda captures an accumulator and a
mutable index counter starting at `i0`. -/
def for_each_idx_from {α β : Type} (l : List β) (init : α) (i0 : Nat)
    (f : α → Nat → β → α) : α :=
  (l.foldl (fun acc b => (f acc.1 acc.2 b, acc.2 + 1)) (init, i0)).1

/-- A `tuple_for_each` loop with the index counter starting at 0. -/
def for_each_idx {α β : Type} (l : List β) (init : α) (f : α → Nat → β → α) : α :=
  for_each_idx_from l init 0 f

/-! ## Verifier -/

/-- Embeds `verifier::is_duplicated_assignment_impl` (three-argument
version): `is` is overwritten with `switches.test(i)` at every descriptor
containing the key. -/
def is_duplicated_assignment_impl (key : key_t) (params : List basic_cl_param)
    (switches : Nat) : Bool :=
  for_each_idx params false
    (fun is i p => if p.contains key then switches.testBit i else is)

/-- Embeds `verifier::is_valid_single_key_impl`. -/
def is_valid_single_key_impl (key : key_t) (params : List basic_cl_param) : Bool :=
  params.foldl (fun is p => if p.contains key then true else is) false

/-- Embeds `verifier::set_assigned_impl` (three-argument version): sets
the bit of every descriptor containing the key. -/
def set_assigned_impl (key : key_t) (params : List basic_cl_param)
    (switches : Nat) : Nat :=
  for_each_idx params switches
    (fun sw i p => if p.contains key then sw ||| (1 <<< i) else sw)

/-- Embeds `verifier::is_duplicated_complex_assignment`.  The first
argument stands for the verifier's `switches_` member, which the source
never reads here: the scratch bitset `tmp_switches` is seeded from
`bitset_type(0u)`.  Each character is first checked against the scratch
bitset, then committed to it, left to right (`std::ranges::any_of` with a
stateful lambda, embedded as an or-accumulating fold). -/
def is_duplicated_complex_assignment (switches_ : Nat) (keys : List Char)
    (params : List basic_cl_param) : Bool :=
  (keys.foldl
    (fun (acc : Bool × Nat) c =>
      let is := is_duplicated_assignment_impl (key_t.short c) params acc.2
      let tmp := set_assigned_impl (key_t.short c) params acc.2
      (acc.1 || is, tmp))
    (false, 0)).1

/-- Embeds the `is_boolean` lambda of `verifier::is_valid_complex_key`. -/
def is_boolean (p : basic_cl_param) : Bool :=
  p.vtype == VType.tBool

/-- Embeds `verifier::is_valid_complex_key`: every character must be
contained in some descriptor whose value type is boolean. -/
def is_valid_complex_key (keys : List Char) (params : List basic_cl_param) : Bool :=
  keys.all (fun c =>
    params.foldl
      (fun is p => if p.contains (key_t.short c) && is_boolean p then true else is)
      false)

/-- Embeds the `required_switches` computation of
`verifier::satisfies_required`: one bit per `basic_required` descriptor
without a default value. -/
def required_mask (params : List basic_cl_param) : Nat :=
  for_each_idx params 0
    (fun m i p => if p.required && !p.has_defval then m ||| (1 <<< i) else m)

/-- Embeds `verifier::satisfies_required`:
`(required_switches & switches_) == required_switches`. -/
def satisfies_required (params : List basic_cl_param) (switches : Nat) : Bool :=
  Nat.land (required_mask params) switches == required_mask params

/-- Embeds the state of `basic_cl_parser::verifier`: declared identifier,
assignment bitset, sticky fail/bad flags. -/
structure verifier where
  identifier : List Char
  switches : Nat
  fail : Bool
  bad : Bool
deriving DecidableEq

/-- Embeds `verifier::is_valid_identifier`: exact equality. -/
def verifier.is_valid_identifier (v : verifier) (word : List Char) : Bool :=
  word == v.identifier

/-- Embeds `verifier::is_duplicated_assignment` (two-argument version). -/
def verifier.is_duplicated_assignment (v : verifier) (key : key_t)
    (params : List basic_cl_param) : Bool :=
  is_duplicated_assignment_impl key params v.switches

/-- Embeds `verifier::set_assigned`. -/
def verifier.set_assigned (v : verifier) (key : key_t)
    (params : List basic_cl_param) : verifier :=
  { v with switches := set_assigned_impl key params v.switches }

/-- Embeds `verifier::mark_fail`. -/
def verifier.mark_fail (v : verifier) (b : Bool) : verifier :=
  { v with fail := b }

/-- Embeds `verifier::mark_bad`. -/
def verifier.mark_bad (v : verifier) (b : Bool) : verifier :=
  { v with bad := b }

/-- Embeds `verifier::good`. -/
def verifier.good (v : verifier) : Bool :=
  !(v.bad || v.fail)

/-- Embeds `verifier::clear`: bitset reset, fail and bad cleared. -/
def verifier.clear (v : verifier) : verifier :=
  { v with switches := 0, fail := false, bad := false }

/-- Embeds `verifier::starts_with_short_key` (on the token's leading). -/
def starts_with_short_key (leading : List Char) : Bool :=
  is_key leading && is_single_dashed leading && !is_complex_key leading

/-- Embeds `verifier::starts_with_long_key` (on the token's leading). -/
def starts_with_long_key (leading : List Char) : Bool :=
  is_key leading && !is_single_dashed leading

/-- Embeds `verifier::starts_with_complex_key` (on the token's leading). -/
def starts_with_complex_key (leading : List Char) : Bool :=
  is_complex_key leading

/-! ## The assigner's scratch stream

The assigner's `std::basic_stringstream` is embedded as its remaining
character content; formatted extraction is embedded by the standard
`num_get` semantics, returning the read result and the rest of the
buffer. -/

/-- Stream whitespace (the delimiters formatted extraction skips). -/
def is_ws (c : Char) : Bool :=
  c == stream_delim || c == Char.ofNat 9 || c == Char.ofNat 10
    || c == Char.ofNat 11 || c == Char.ofNat 12 || c == Char.ofNat 13

/-- Skip leading whitespace, as the `istream` sentry does. -/
def drop_ws (s : List Char) : List Char :=
  s.dropWhile is_ws

/-- Digit-string accumulation of `num_get` stage 3. -/
def digits_to_int (ds : List Char) : Int :=
  ds.foldl (fun n d => n * 10 + Int.ofNat (d.toNat - 48)) 0

/-- Integer extraction (`num_get` for an integral type): skip whitespace,
optional sign, a digit run; no digits means failure (the consumed sign is
not put back). -/
def read_int (s : List Char) : Option Int × List Char :=
  let s1 := drop_ws s
  let sr :=
    match s1 with
    | c :: r =>
      if c == dash then (true, r)
      else if c == Char.ofNat 43 then (false, r)
      else (false, s1)
    | [] => (false, s1)
  let ds := sr.2.takeWhile (fun c => c.isDigit)
  let rest := sr.2.dropWhile (fun c => c.isDigit)
  if ds.isEmpty then (none, rest)
  else (some (if sr.1 then -(digits_to_int ds) else digits_to_int ds), rest)

/-- Length of the common prefix of two character lists. -/
def common_prefix_of : List Char → List Char → Nat
  | x :: xs, y :: ys => if x == y then common_prefix_of xs ys + 1 else 0
  | _, _ => 0

/-- Boolean extraction under `std::boolalpha` (`num_get` keyword
matching): characters are consumed while they match the `true`/`false`
keywords; a complete keyword yields its value, anything else fails with
the matched prefix consumed. -/
def read_bool_alpha (s : List Char) : Option Bool × List Char :=
  let s1 := drop_ws s
  let t := common_prefix_of s1 [Char.ofNat 116, Char.ofNat 114, Char.ofNat 117, Char.ofNat 101]
  let f := common_prefix_of s1 [Char.ofNat 102, Char.ofNat 97, Char.ofNat 108, Char.ofNat 115, Char.ofNat 101]
  if t == 4 then (some true, s1.drop 4)
  else if f == 5 then (some false, s1.drop 5)
  else (none, s1.drop (max t f))

/-- Boolean extraction under `std::noboolalpha` (`num_get`): read as an
integer; 0 stores false, 1 stores true, any other value stores true and
fails, and a failed integer read stores false and fails.  Result:
((stored value, failed), rest). -/
def read_bool_noalpha (s : List Char) : (Bool × Bool) × List Char :=
  match read_int s with
  | (some n, rest) =>
    if n == 0 then ((false, false), rest)
    else if n == 1 then ((true, false), rest)
    else ((true, true), rest)
  | (none, rest) => ((false, true), rest)

/-- Embeds `operator>>(istream&, basic_cl_param&)` for an integer
descriptor: `val_` is always (re)engaged; a failed extraction sets the
fail flag (the stream's error state is cleared again inside). -/
def extract_int (p : basic_cl_param) (s : List Char) : basic_cl_param × List Char :=
  match read_int s with
  | (some n, rest) => ({ p with val := some (PValue.vInt n) }, rest)
  | (none, rest) => ({ p with val := some (PValue.vInt 0), fail := true }, rest)

/-- Embeds `operator>>` for a boolean descriptor with `boolalpha` set. -/
def extract_bool_alpha (p : basic_cl_param) (s : List Char) :
    basic_cl_param × List Char :=
  match read_bool_alpha s with
  | (some b, rest) => ({ p with val := some (PValue.vBool b) }, rest)
  | (none, rest) => ({ p with val := some (PValue.vBool false), fail := true }, rest)

/-- Embeds `operator>>` for a boolean descriptor with `noboolalpha`. -/
def extract_bool_noalpha (p : basic_cl_param) (s : List Char) :
    basic_cl_param × List Char :=
  match read_bool_noalpha s with
  | ((b, failed), rest) =>
    if failed then ({ p with val := some (PValue.vBool b), fail := true }, rest)
    else ({ p with val := some (PValue.vBool b) }, rest)

/-- All whitespace-delimited tokens remaining in a stream
(`std::ranges::basic_istream_view` driven to end of stream).  Each loop
step consumes at least one character, so the input length bounds the
iteration count. -/
def read_tokens_go : Nat → List Char → List (List Char)
  | 0, _ => []
  | fuel + 1, s =>
    let s1 := drop_ws s
    match s1 with
    | [] => []
    | _ =>
      read_tokens_go fuel (s1.dropWhile (fun c => !(is_ws c)))
        |> List.cons (s1.takeWhile (fun c => !(is_ws c)))

/-- All whitespace-delimited tokens remaining in a stream. -/
def read_tokens (s : List Char) : List (List Char) :=
  read_tokens_go s.length s

/-! ## Assigner -/

/-- Embeds `assigner::stream_args`: append every argument word followed
by one delimiter to the stream. -/
def stream_args (stream : List Char) (args : List (List Char)) : List Char :=
  args.foldl (fun st a => st ++ a ++ [stream_delim]) stream

/-- Embeds `assigner::has_unassigned`:
`stream_.rdbuf()->in_avail() > 1` (a single remaining character — the
trailing delimiter `stream_args` appends — does not count). -/
def has_unassigned (stream : List Char) : Bool :=
  decide (stream.length > 1)

/-- Embeds `assigner::get_unassigned`: reads out every remaining token
(the message payload) and leaves the stream drained. -/
def get_unassigned (stream : List Char) : List (List Char) × List Char :=
  (read_tokens stream, [])

/-- The string branch of `assigner::assign_by_idx`: every token of the
streamed arguments is accumulated, re-separated by single delimiters
(`acc += s; acc += delim;` then `acc.pop_back()`), and assigned; the
stream is fully consumed by the istream view. -/
def assign_str (p : basic_cl_param) (args : List (List Char)) (stream : List Char) :
    basic_cl_param × List Char :=
  let st := stream_args stream args
  let toks := read_tokens st
  let acc := (toks.foldl (fun a t => a ++ t ++ [stream_delim]) []).dropLast
  (p.assign (PValue.vStr acc), [])

/-- The boolean branch of `assigner::assign_by_idx`: no argument words
means `true`; otherwise try `boolalpha`, and if the descriptor failed,
clear it and retry the stream with `noboolalpha`. -/
def assign_bool (p : basic_cl_param) (args : List (List Char)) (stream : List Char) :
    basic_cl_param × List Char :=
  if args.isEmpty then (p.assign (PValue.vBool true), stream)
  else
    let st := stream_args stream args
    let pr := extract_bool_alpha p st
    if pr.1.fail then extract_bool_noalpha pr.1.clear pr.2
    else pr

/-- The generic branch of `assigner::assign_by_idx`
(`stream_args(args) >> p`), instantiated at the integer type. -/
def assign_generic (p : basic_cl_param) (args : List (List Char)) (stream : List Char) :
    basic_cl_param × List Char :=
  extract_int p (stream_args stream args)

/-- The per-type dispatch (`if constexpr` chain) of
`assigner::assign_by_idx` for the one descriptor whose index matches. -/
def assign_one (p : basic_cl_param) (args : List (List Char)) (stream : List Char) :
    basic_cl_param × List Char :=
  match p.vtype with
  | VType.tStr => assign_str p args stream
  | VType.tBool => assign_bool p args stream
  | VType.tInt => assign_generic p args stream

/-- Embeds `assigner::assign_by_idx`: the loop touches exactly the
descriptor at `idx` (none, when `idx` is out of range, which `getidx`
only produces for an empty parameter set) and reports its fail flag to
the verifier. -/
def assign_by_idx (idx : Nat) (args : List (List Char))
    (params : List basic_cl_param) (stream : List Char) (veri : verifier) :
    List basic_cl_param × List Char × verifier :=
  match params.get? idx with
  | none => (params, stream, veri)
  | some p =>
    let pr := assign_one p args stream
    (params.set idx pr.1, pr.2, veri.mark_fail pr.1.fail)

/-- Embeds `assigner::getidx_impl`: `ret` starts at 0 and is overwritten
with the index of every descriptor containing the key. -/
def getidx (key : key_t) (params : List basic_cl_param) : Nat :=
  for_each_idx params 0 (fun r i p => if p.contains key then i else r)

/-- Embeds `p.assign(true)` as issued by `assigner::assign_complex` on
every descriptor containing a complex-key character, with the C++
implicit conversions of `true` into the descriptor's value type: `bool`
stays `true`, arithmetic types receive 1, and the string type is not
convertible, which selects the fail-setting `assign` overload. -/
def assign_true (p : basic_cl_param) : basic_cl_param :=
  match p.vtype with
  | VType.tBool => p.assign (PValue.vBool true)
  | VType.tInt => p.assign (PValue.vInt 1)
  | VType.tStr => { p with fail := true }

/-! ## Container (parameter set plus lazy result cache) -/

/-- Embeds `basic_cl_parser::container`: the parameter tuple plus the
lazily cached result tuple. -/
structure container where
  data : List basic_cl_param
  cached_values : Option (List PValue)
deriving DecidableEq

/-- The per-slot resolution of `container::update_cache`: the assigned or
default value when present, else the value type's zero state. -/
def resolved_value (p : basic_cl_param) : PValue :=
  if p.has_value then p.value else zero_value p.vtype

/-- Embeds `container::update_cache`. -/
def container.update_cache (c : container) : container :=
  { c with cached_values := some (c.data.map resolved_value) }

/-- Embeds `container::invalidate_cache`. -/
def container.invalidate_cache (c : container) : container :=
  { c with cached_values := none }

/-- Embeds `container::values`: rebuild the cache when absent, then
return it. -/
def container.values (c : container) : container × List PValue :=
  match c.cached_values with
  | some v => (c, v)
  | none => (c.update_cache, c.data.map resolved_value)

/-- Embeds `container::clear`: `p.clear()` on every descriptor (only the
fail flag) and cache invalidation. -/
def container.clear (c : container) : container :=
  container.invalidate_cache { c with data := c.data.map basic_cl_param.clear }

/-! ## Logger -/

/-- Embeds `gclp::error_code`. -/
inductive error_code
  | identifier_not_given
  | invalid_identifier
  | key_not_given
  | undefined_key
  | unparsed_argument
  | incompatible_argument
  | wrong_complex_key
  | required_key_not_given
  | duplicated_assignments
deriving DecidableEq

/-- One formatted message block appended to `err_stream_` by a
`log_error_*` call; the payload captures what the format interpolates. -/
inductive log_event
  | identifier_not_given
  | incompatible_arguments (key : key_t) (args : List (List Char))
  | invalid_identifier (received : List Char) (correct : List Char)
  | key_not_given
  | undefined_key (key : key_t)
  | unparsed_arguments (args : List (List Char))
  | wrong_complex_key (keys : List Char)
  | required_key_not_given
  | duplicated_assignments (key : key_t)
deriving DecidableEq

/-- Embeds `basic_cl_parser::logger`: at most one stored error code plus
the accumulated message stream. -/
structure logger where
  err_code : Option error_code
  err_msg : List log_event
deriving DecidableEq

/-- Embeds `logger::lock_error`: stores the code only when none is stored
yet. -/
def logger.lock_error (l : logger) (ec : error_code) : logger :=
  if l.err_code.isSome then l else { l with err_code := some ec }

/-- Embeds `logger::error`. -/
def logger.error (l : logger) : Option error_code :=
  l.err_code

/-- Embeds `logger::clear`: code reset and message buffer drained. -/
def logger.clear (l : logger) : logger :=
  { l with err_code := none, err_msg := [] }

/-- Embeds `logger::log_error_identifier_not_given`. -/
def logger.log_error_identifier_not_given (l : logger) : logger :=
  let l1 := l.lock_error error_code.identifier_not_given
  { l1 with err_msg := l1.err_msg ++ [log_event.identifier_not_given] }

/-- Embeds `logger::log_error_incompatible_arguments`. -/
def logger.log_error_incompatible_arguments (l : logger) (key : key_t)
    (args : List (List Char)) : logger :=
  let l1 := l.lock_error error_code.incompatible_argument
  { l1 with err_msg := l1.err_msg ++ [log_event.incompatible_arguments key args] }

/-- Embeds `logger::log_error_invalid_identifier`. -/
def logger.log_error_invalid_identifier (l : logger)
    (received correct : List Char) : logger :=
  let l1 := l.lock_error error_code.invalid_identifier
  { l1 with err_msg := l1.err_msg ++ [log_event.invalid_identifier received correct] }

/-- Embeds `logger::log_error_key_not_given`. -/
def logger.log_error_key_not_given (l : logger) : logger :=
  let l1 := l.lock_error error_code.key_not_given
  { l1 with err_msg := l1.err_msg ++ [log_event.key_not_given] }

/-- Embeds `logger::log_error_undefined_key`. -/
def logger.log_error_undefined_key (l : logger) (key : key_t) : logger :=
  let l1 := l.lock_error error_code.undefined_key
  { l1 with err_msg := l1.err_msg ++ [log_event.undefined_key key] }

/-- Embeds `logger::log_error_unparsed_arguments`. -/
def logger.log_error_unparsed_arguments (l : logger)
    (args : List (List Char)) : logger :=
  let l1 := l.lock_error error_code.unparsed_argument
  { l1 with err_msg := l1.err_msg ++ [log_event.unparsed_arguments args] }

/-- Embeds `logger::log_error_wrong_complex_key`.  Note: the source locks
`error_code::incompatible_argument` here, not
`error_code::wrong_complex_key`. -/
def logger.log_error_wrong_complex_key (l : logger) (keys : List Char) : logger :=
  let l1 := l.lock_error error_code.incompatible_argument
  { l1 with err_msg := l1.err_msg ++ [log_event.wrong_complex_key keys] }

/-- Embeds `logger::log_error_required_key_not_given` (the message block
enumerating the required descriptors is one event). -/
def logger.log_error_required_key_not_given (l : logger) : logger :=
  let l1 := l.lock_error error_code.required_key_not_given
  { l1 with err_msg := l1.err_msg ++ [log_event.required_key_not_given] }

/-- Embeds `logger::log_error_duplicated_assignments`. -/
def logger.log_error_duplicated_assignments (l : logger) (key : key_t) : logger :=
  let l1 := l.lock_error error_code.duplicated_assignments
  { l1 with err_msg := l1.err_msg ++ [log_event.duplicated_assignments key] }

/-! ## Interpreter -/

/-- Embeds `interpreter::token`. -/
structure token where
  leading : List Char
  followings : List (List Char)
deriving DecidableEq

/-- Embeds `interpreter::get_token` on the remaining word sequence: an
empty token at the end, otherwise one leading word plus every following
word up to the next key-shaped word; returns the token and the words left
after the cursor. -/
def get_token (ws : List (List Char)) : token × List (List Char) :=
  match ws with
  | [] => ({ leading := [], followings := [] }, [])
  | w :: rest =>
    ({ leading := w, followings := rest.takeWhile (fun x => !(is_key x)) },
      rest.dropWhile (fun x => !(is_key x)))

/-! ## Parser orchestration -/

/-- The full mutable state of one `basic_cl_parser` instance: parameter
container, verifier, the assigner's scratch stream, and the logger. -/
structure parser_state where
  cont : container
  veri : verifier
  stream : List Char
  logg : logger
deriving DecidableEq

/-- Embeds the `basic_cl_parser` constructor. -/
def basic_cl_parser_state (identifier : List Char) (params : List basic_cl_param) :
    parser_state :=
  { cont := { data := params, cached_values := none },
    veri := { identifier := identifier, switches := 0, fail := false, bad := false },
    stream := [],
    logg := { err_code := none, err_msg := [] } }

/-- Embeds `basic_cl_parser::initialize`: `cont_.clear()`,
`veri_.clear()`, `logg_.clear()`. -/
def initialize_state (st : parser_state) : parser_state :=
  { st with cont := st.cont.clear, veri := st.veri.clear, logg := st.logg.clear }

/-- Embeds `basic_cl_parser::get` / `container::values` at the state
level. -/
def parser_get (st : parser_state) : parser_state × List PValue :=
  let cv := st.cont.values
  ({ st with cont := cv.1 }, cv.2)

/-- Embeds `assigner::assign_single`: `assign_by_idx` at `getidx(key)`,
`set_assigned`, then cache invalidation when the verifier is good, else
`mark_bad(has_unassigned())`. -/
def assign_single (st : parser_state) (key : key_t) (args : List (List Char)) :
    parser_state :=
  let r := assign_by_idx (getidx key st.cont.data) args st.cont.data st.stream st.veri
  let veri1 := verifier.set_assigned r.2.2 key r.1
  let cont_inv := container.invalidate_cache ({ st.cont with data := r.1 })
  let cont_raw : container := { st.cont with data := r.1 }
  if veri1.good then
    { st with
      cont := cont_inv,
      stream := r.2.1,
      veri := veri1 }
  else
    { st with
      cont := cont_raw,
      stream := r.2.1,
      veri := veri1.mark_bad (has_unassigned r.2.1) }

/-- One character step of the `assign_complex` loop: every descriptor
containing the key receives `assign(true)` with `mark_fail(p.fail())`;
an unknown character marks the verifier failed, a known one commits the
assignment bit. -/
def assign_complex_step (acc : List basic_cl_param × verifier) (c : Char) :
    List basic_cl_param × verifier :=
  let step := acc.1.foldl
    (fun (st : List basic_cl_param × verifier × Bool) p =>
      if p.contains (key_t.short c) then
        let p1 := assign_true p
        (st.1 ++ [p1], verifier.mark_fail st.2.1 p1.fail, true)
      else (st.1 ++ [p], st.2.1, st.2.2))
    ([], acc.2, false)
  if !step.2.2 then (step.1, verifier.mark_fail step.2.1 true)
  else (step.1, verifier.set_assigned step.2.1 (key_t.short c) step.1)

/-- Embeds `assigner::assign_complex`: the per-character loop, then cache
invalidation when good, else `mark_bad(has_unassigned())`. -/
def assign_complex (st : parser_state) (keys : List Char) : parser_state :=
  let r := keys.foldl assign_complex_step (st.cont.data, st.veri)
  let cont_inv := container.invalidate_cache ({ st.cont with data := r.1 })
  let cont_raw : container := { st.cont with data := r.1 }
  if r.2.good then
    { st with
      cont := cont_inv,
      veri := r.2 }
  else
    { st with
      cont := cont_raw,
      veri := r.2.mark_bad (has_unassigned st.stream) }

/-- Embeds `basic_cl_parser::parse_single_key`: undefined-key and
duplicate checks, the assignment, then fail/bad propagation into the
logger (each log call draining the stream via `get_unassigned`). -/
def parse_single_key (st : parser_state) (key : key_t) (args : List (List Char)) :
    parser_state :=
  let st1 := if !(is_valid_single_key_impl key st.cont.data) then
      { st with logg := st.logg.log_error_undefined_key key }
    else st
  let st2 := if st1.veri.is_duplicated_assignment key st1.cont.data then
      { st1 with logg := st1.logg.log_error_duplicated_assignments key }
    else st1
  let st3 := assign_single st2 key args
  let st4 := if st3.veri.fail then
      let gu := get_unassigned st3.stream
      { st3 with
        logg := st3.logg.log_error_incompatible_arguments key gu.1,
        stream := gu.2 }
    else st3
  if st4.veri.bad then
    let gu := get_unassigned st4.stream
    { st4 with
      logg := st4.logg.log_error_unparsed_arguments gu.1,
      stream := gu.2 }
  else st4

/-- Embeds `basic_cl_parser::parse_complex_key`: validity and duplicate
checks, the assignment, then a second `wrong_complex_key` log when the
verifier failed. -/
def parse_complex_key (st : parser_state) (keys : List Char) : parser_state :=
  let st1 := if !(is_valid_complex_key keys st.cont.data) then
      { st with logg := st.logg.log_error_wrong_complex_key keys }
    else st
  let st2 := if is_duplicated_complex_assignment st1.veri.switches keys st1.cont.data then
      { st1 with logg := st1.logg.log_error_duplicated_assignments (key_t.long keys) }
    else st1
  let st3 := assign_complex st2 keys
  if st3.veri.fail then
    { st3 with logg := st3.logg.log_error_wrong_complex_key keys }
  else st3

/-- Embeds the token loop of `basic_cl_parser::parse_impl`
(`while (!ip.done())`).  Every iteration consumes at least the leading
word, so `fuel := word count` bounds the iteration count. -/
def parse_loop : Nat → parser_state → List (List Char) → parser_state
  | 0, st, _ => st
  | _ + 1, st, [] => st
  | fuel + 1, st, w :: rest =>
    let st1 := if !(is_key w) then { st with logg := st.logg.log_error_key_not_given }
      else st
    let tr := get_token (w :: rest)
    let st2 :=
      if starts_with_short_key tr.1.leading then
        parse_single_key st1 (key_t.short ((remove_dash tr.1.leading).headD stream_delim))
          tr.1.followings
      else if starts_with_long_key tr.1.leading then
        parse_single_key st1 (key_t.long (remove_dash tr.1.leading)) tr.1.followings
      else if starts_with_complex_key tr.1.leading then
        parse_complex_key st1 (remove_dash tr.1.leading)
      else st1
    parse_loop fuel st2 tr.2

/-- The tail of `basic_cl_parser::parse_impl` after the identifier
checks: the token loop, the required-satisfaction check, the final cache
update when no error was logged, and `return get();`. -/
def parse_finish (st : parser_state) (ws : List (List Char)) :
    parser_state × List PValue :=
  let st5 := parse_loop ws.length st ws
  let st6 := if !(satisfies_required st5.cont.data st5.veri.switches) then
      { st5 with logg := st5.logg.log_error_required_key_not_given }
    else st5
  let st7 := if st6.logg.err_code.isNone then
      { st6 with cont := st6.cont.update_cache }
    else st6
  parser_get st7

/-- Embeds `basic_cl_parser::parse_impl` on the split word sequence:
transient-state reset, identifier checks, then `parse_finish` (the token
loop, required-satisfaction check and final cache update). -/
def parse_impl (st : parser_state) (words : List (List Char)) :
    parser_state × List PValue :=
  let st1 := initialize_state st
  let st2 := if words.isEmpty then
      { st1 with logg := st1.logg.log_error_identifier_not_given }
    else st1
  let tr := get_token words
  let st3 := if !(st2.veri.is_valid_identifier tr.1.leading) then
      { st2 with
        logg := st2.logg.log_error_invalid_identifier tr.1.leading st2.veri.identifier }
    else st2
  let st4 := if !(tr.1.followings.isEmpty) then
      { st3 with logg := st3.logg.log_error_key_not_given }
    else st3
  parse_finish st4 tr.2

/-- Embeds `basic_cl_parser::parse(string_view)`: early return of `get()`
while an error is latched, else `parse_impl` on the split words. -/
def parse (st : parser_state) (command_line : List Char) :
    parser_state × List PValue :=
  if (st.logg.error).isSome then parser_get st
  else parse_impl st (split_words command_line)

/-! ## Concrete descriptors used by the claim instances

These mirror the declarations of the repository's tests, e.g.
`gclp::optional<int>({'a'}, {"aa"}, ...)`. -/

/-- `gclp::optional<int>` with short key 'a' and long key "aa". -/
def pIntA : basic_cl_param :=
  { key_chars := [ Char.ofNat 97 ], key_strs := [ [Char.ofNat 97, Char.ofNat 97] ],
    vtype := VType.tInt, required := false, defval := none, val := none, fail := false }

/-- `gclp::optional<bool>` with short key 'a' and long key "aa". -/
def pBoolA : basic_cl_param :=
  { key_chars := [ Char.ofNat 97 ], key_strs := [ [Char.ofNat 97, Char.ofNat 97] ],
    vtype := VType.tBool, required := false, defval := none, val := none, fail := false }

/-- `gclp::optional<bool>` with short key 'b' and long key "bb". -/
def pBoolB : basic_cl_param :=
  { key_chars := [ Char.ofNat 98 ], key_strs := [ [Char.ofNat 98, Char.ofNat 98] ],
    vtype := VType.tBool, required := false, defval := none, val := none, fail := false }

/-- `gclp::optional<bool>` with short key 'c' and long key "cc". -/
def pBoolC : basic_cl_param :=
  { key_chars := [ Char.ofNat 99 ], key_strs := [ [Char.ofNat 99, Char.ofNat 99] ],
    vtype := VType.tBool, required := false, defval := none, val := none, fail := false }

/-- `gclp::required<int>` with short key 'a', long key "aa" and default
value 3 (`->defval(3)`). -/
def pReqIntDef3 : basic_cl_param :=
  { key_chars := [ Char.ofNat 97 ], key_strs := [ [Char.ofNat 97, Char.ofNat 97] ],
    vtype := VType.tInt, required := true, defval := some (PValue.vInt 3),
    val := none, fail := false }

end Gclp

namespace Gclp

/-! ## Helper lemmas -/

theorem for_each_idx_from_nil {α β : Type} (init : α) (i0 : Nat)
    (f : α → Nat → β → α) :
    for_each_idx_from ([] : List β) init i0 f = init := rfl

theorem for_each_idx_from_cons {α β : Type} (b : β) (l : List β) (init : α)
    (i0 : Nat) (f : α → Nat → β → α) :
    for_each_idx_from (b :: l) init i0 f
      = for_each_idx_from l (f init i0 b) (i0 + 1) f := rfl

theorem for_each_idx_def {α β : Type} (l : List β) (init : α)
    (f : α → Nat → β → α) :
    for_each_idx l init f = for_each_idx_from l init 0 f := rfl

theorem dropWhile_head_false {α : Type} (p : α → Bool) :
    ∀ {l : List α} {c : α} {t : List α}, l.dropWhile p = c :: t → p c = false := by
  intro l
  induction l with
  | nil => intro c t h; simp [List.dropWhile] at h
  | cons a l ih =>
    intro c t h
    rw [List.dropWhile_cons] at h
    by_cases ha : p a
    · exact ih (by simpa [ha] using h)
    · have hac : a = c := by
        simp [ha] at h
        exact h.1
      rw [← hac]
      simpa using ha

end Gclp

namespace Gclp

theorem split_words_go_ne_nil :
    ∀ (fuel : Nat) (s : List Char) (delim : Char) (esc : Bool)
      (acc : List (List Char)),
      (∀ w ∈ acc, w ≠ []) →
      ∀ w ∈ split_words_go fuel s delim esc acc, w ≠ [] := by
  intro fuel
  induction fuel with
  | zero =>
    intro s delim esc acc hacc
    simpa [split_words_go] using hacc
  | succ n ih =>
    intro s delim esc acc hacc
    match s with
    | [] => simpa [split_words_go] using hacc
    | c :: rest =>
      rw [split_words_go]
      by_cases hesc : esc
      · simp only [hesc, if_pos]
        exact ih rest delim false acc hacc
      · simp only [hesc, Bool.false_eq_true, ite_false]
        by_cases hc : c == char_escape
        · simp only [hc, if_pos]
          exact ih rest delim true acc hacc
        · simp only [hc, Bool.false_eq_true, ite_false]
          split
          · simpa using hacc
          · next c1 t1 heq1 =>
            split
            · simpa using hacc
            · next c2 t2 heq2 =>
              have hc2 : (c2 == new_delim c1) = false :=
                dropWhile_head_false (fun x => x == new_delim c1) heq2
              have haccw : ∀ w ∈ acc ++ [(c2 :: t2).takeWhile
                  (fun x => !(x == new_delim c1))], w ≠ [] := by
                intro w hw
                rcases List.mem_append.mp hw with hw1 | hw2
                · exact hacc w hw1
                · rw [List.mem_singleton] at hw2
                  rw [hw2, List.takeWhile_cons]
                  simp only [hc2, Bool.not_false, if_pos]
                  exact List.cons_ne_nil _ _
              split
              · simpa using haccw
              · next d l3t heq3 =>
                exact ih l3t (new_delim c2) false _ haccw

/-!  ## Claim C8 -/

/-- C8: `split_words` treats quoted spans as atomic words with the quote
characters stripped: on the input `TestCLI -d "Hello World!"` it returns
exactly the three words TestCLI, -d, Hello World!; moreover empty input
yields an empty word sequence and no emitted word is ever empty (so
consecutive delimiters never produce empty words). -/
theorem C8_split_words_quoting :
    split_words ("TestCLI -d \"Hello World!\"".toList)
        = ["TestCLI".toList, "-d".toList, "Hello World!".toList] ∧
    split_words [] = [] ∧
    (∀ (s : List Char), ∀ w ∈ split_words s, w ≠ []) := by
  refine ⟨by decide, rfl, ?_⟩
  intro s w hw
  exact split_words_go_ne_nil s.length s stream_delim false [] (by simp) w hw

/-- Witness for C8 at the quoting example. -/
theorem C8_split_words_quoting_witness :
    ("TestCLI".toList : List Char) ≠ [] :=
  C8_split_words_quoting.2.2 ("TestCLI -d \"Hello World!\"".toList)
    ("TestCLI".toList) (by decide)

/-!  ## Claim C9 -/

/-- C9: `is_key` classifies words as follows: every single-character word
is not a key; the bare words - and -- are not keys; and every word of
length greater than 2 is a key iff its first character is '-' and its
character at index 2 is not '-' (so --xy and -xyz are keys while -x- is
not). -/
theorem C9_is_key_classification :
    (∀ c : Char, is_key [c] = false) ∧
    is_key [ dash ] = false ∧
    is_key [ dash, dash ] = false ∧
    (∀ (w : List Char) (h : w.length > 2),
      is_key w = true ↔
        (w.get ⟨0, by omega⟩ = dash ∧ ¬(w.get ⟨2, by omega⟩ = dash))) ∧
    is_key ("--xy".toList) = true ∧
    is_key ("-xyz".toList) = true ∧
    is_key ("-x-".toList) = false := by
  refine ⟨?_, by decide, by decide, ?_, by decide, by decide, by decide⟩
  · intro c
    simp [is_key]
  · intro w h
    have h1 : ¬(w.length = 1) := by omega
    rw [is_key, if_neg h1, if_pos h]
    rw [List.getD_eq_get w stream_delim (by omega : 0 < w.length),
        List.getD_eq_get w stream_delim (by omega : 2 < w.length)]
    simp [Bool.and_eq_true, beq_iff_eq]

/-- Witness for C9 at the word -xyz. -/
theorem C9_is_key_classification_witness :
    is_key ("-xyz".toList) = true ↔
      (("-xyz".toList).get ⟨0, by decide⟩ = dash ∧
        ¬(("-xyz".toList).get ⟨2, by decide⟩ = dash)) :=
  C9_is_key_classification.2.2.2.1 ("-xyz".toList) (by decide)

/-!  ## Claim C2 -/

/-- C2: evaluating the parser at the failing input: with only the boolean
descriptor for 'a' declared and the complex key -ax containing the
unbound character x, the code locked by `log_error_wrong_complex_key` is
`incompatible_argument`, which is not `wrong_complex_key`. -/
theorem C2_wrong_complex_key_locks_incompatible :
    (parse (basic_cl_parser_state ("identifier".toList) [pBoolA])
        ("identifier -ax".toList)).1.logg.error
      = some error_code.incompatible_argument ∧
    error_code.incompatible_argument ≠ error_code.wrong_complex_key := by
  exact ⟨by decide, by decide⟩

/-!  ## Claim C1 -/

/-- C1 counterexample: parse identifier -a 3 (assigning 3), then parse
identifier with the key omitted: the second result still carries the
value 3 assigned by the first parse (not the int type's zero state), so
the current-value slot is not reset at the start of a parse. -/
theorem C1_stale_value_counterexample :
    ((parse (basic_cl_parser_state ("identifier".toList) [pIntA])
        ("identifier -a 3".toList)).2 = [PValue.vInt 3]) ∧
    ((parse ((parse (basic_cl_parser_state ("identifier".toList) [pIntA])
        ("identifier -a 3".toList)).1) ("identifier".toList)).2
      = [PValue.vInt 3]) ∧
    ((parse ((parse (basic_cl_parser_state ("identifier".toList) [pIntA])
        ("identifier -a 3".toList)).1) ("identifier".toList)).1.logg.error
      = none) ∧
    PValue.vInt 3 ≠ zero_value VType.tInt := by
  exact ⟨by decide, by decide, by decide, by decide⟩

/-- C1 amended: at the start of a parse, `initialize` resets every
descriptor's conversion-fail flag, the verifier's bitset/fail/bad and the
logger, and invalidates the result cache, but it leaves every
descriptor's current-value slot untouched, so a value assigned during a
previous parse survives into the next parse's result when its key is
omitted. -/
theorem C1_amended_initialize_frame :
    ∀ st : parser_state,
      ((initialize_state st).cont.data.map basic_cl_param.val
          = st.cont.data.map basic_cl_param.val) ∧
      (∀ p ∈ (initialize_state st).cont.data, p.fail = false) ∧
      (initialize_state st).veri.switches = 0 ∧
      (initialize_state st).veri.fail = false ∧
      (initialize_state st).veri.bad = false ∧
      (initialize_state st).logg.err_code = none ∧
      (initialize_state st).logg.err_msg = [] ∧
      (initialize_state st).cont.cached_values = none := by
  intro st
  refine ⟨?_, ?_, rfl, rfl, rfl, rfl, rfl, rfl⟩
  · show (st.cont.data.map basic_cl_param.clear).map basic_cl_param.val
        = st.cont.data.map basic_cl_param.val
    rw [List.map_map]
    rfl
  intro p hp
  simp only [initialize_state, container.clear, container.invalidate_cache,
    List.mem_map] at hp
  obtain ⟨q, hq, hqp⟩ := hp
  rw [← hqp]
  rfl

/-- Witness for C1 amended at a concrete parser state. -/
theorem C1_amended_initialize_frame_witness :
    pIntA.fail = false :=
  (C1_amended_initialize_frame
      (basic_cl_parser_state ("identifier".toList) [pIntA])).2.1 pIntA (by decide)

/-!  ## Logger code-preservation lemmas -/

theorem err_code_msg_update (l : logger) (m : List log_event) :
    ({ l with err_msg := m } : logger).err_code = l.err_code := rfl

theorem lock_error_code_some {l : logger} {e : error_code}
    (h : l.err_code = some e) (ec : error_code) :
    (l.lock_error ec).err_code = some e := by
  simp [logger.lock_error, h]

theorem assign_single_logg (st : parser_state) (key : key_t)
    (args : List (List Char)) :
    (assign_single st key args).logg = st.logg := by
  dsimp only [assign_single]
  split <;> rfl

theorem assign_complex_logg (st : parser_state) (keys : List Char) :
    (assign_complex st keys).logg = st.logg := by
  dsimp only [assign_complex]
  split <;> rfl

theorem parse_single_key_code_some {e : error_code} (st : parser_state)
    (key : key_t) (args : List (List Char)) (h : st.logg.err_code = some e) :
    (parse_single_key st key args).logg.err_code = some e := by
  dsimp only [parse_single_key]
  repeat' split
  all_goals
    simp_all [assign_single_logg, logger.log_error_undefined_key,
      logger.log_error_duplicated_assignments,
      logger.log_error_incompatible_arguments,
      logger.log_error_unparsed_arguments, logger.lock_error]

theorem parse_complex_key_code_some {e : error_code} (st : parser_state)
    (keys : List Char) (h : st.logg.err_code = some e) :
    (parse_complex_key st keys).logg.err_code = some e := by
  dsimp only [parse_complex_key]
  repeat' split
  all_goals
    simp_all [assign_complex_logg, logger.log_error_wrong_complex_key,
      logger.log_error_duplicated_assignments, logger.lock_error]

theorem parse_loop_code_some {e : error_code} :
    ∀ (fuel : Nat) (st : parser_state) (ws : List (List Char)),
      st.logg.err_code = some e →
      (parse_loop fuel st ws).logg.err_code = some e := by
  intro fuel
  induction fuel with
  | zero => intro st ws h; simpa [parse_loop] using h
  | succ n ih =>
    intro st ws h
    match ws with
    | [] => simpa [parse_loop] using h
    | w :: rest =>
      rw [parse_loop]
      apply ih
      have hlogged : ({ st with logg := st.logg.log_error_key_not_given }
          : parser_state).logg.err_code = some e := by
        simp [logger.log_error_key_not_given, logger.lock_error, h]
      repeat' split
      all_goals
        first
        | exact parse_single_key_code_some _ _ _ hlogged
        | exact parse_single_key_code_some _ _ _ h
        | exact parse_complex_key_code_some _ _ hlogged
        | exact parse_complex_key_code_some _ _ h
        | exact hlogged
        | exact h

theorem parse_finish_code_some {e : error_code} (st : parser_state)
    (ws : List (List Char)) (h : st.logg.err_code = some e) :
    (parse_finish st ws).1.logg.err_code = some e := by
  dsimp only [parse_finish, parser_get]
  have h5 : (parse_loop ws.length st ws).logg.err_code = some e :=
    parse_loop_code_some ws.length st ws h
  repeat' split
  all_goals
    simp_all [logger.log_error_required_key_not_given, logger.lock_error,
      container.values, container.update_cache]

/-!  ## Claim C3 -/

/-- C3 counterexample: parsing WrongCLI -a 3 against the declared
identifier reports invalid_identifier, yet the descriptor for 'a' has
been assigned the value 3 — the parser did perform mutating work on the
parameter descriptors after detecting the invalid identifier. -/
theorem C3_invalid_identifier_counterexample :
    ((parse (basic_cl_parser_state ("identifier".toList) [pIntA])
        ("WrongCLI -a 3".toList)).1.logg.error
      = some error_code.invalid_identifier) ∧
    ((parse (basic_cl_parser_state ("identifier".toList) [pIntA])
        ("WrongCLI -a 3".toList)).1.cont.data.map basic_cl_param.val
      = [some (PValue.vInt 3)]) := by
  exact ⟨by decide, by decide⟩

/-- C3 amended: for every command line whose first word differs from the
declared identifier, parse() reports invalid_identifier as the final
error code (the sticky first error survives everything logged later),
but the parser keeps processing the remaining tokens and may assign
values to the parameter descriptors while doing so. -/
theorem C3_amended_invalid_identifier_sticky :
    (∀ (st : parser_state) (cmd : List Char) (w : List Char)
      (rest : List (List Char)),
      st.logg.err_code = none →
      split_words cmd = w :: rest →
      (w == st.veri.identifier) = false →
      (parse st cmd).1.logg.error = some error_code.invalid_identifier) ∧
    ((parse (basic_cl_parser_state ("identifier".toList) [pIntA])
        ("WrongCLI -a 3".toList)).1.cont.data.map basic_cl_param.val
      = [some (PValue.vInt 3)]) := by
  constructor
  · intro st cmd w rest h hw hid
    have hcond : (st.logg.error).isSome = false := by simp [logger.error, h]
    simp only [parse, hcond, Bool.false_eq_true, ite_false]
    rw [hw]
    simp only [parse_impl, List.isEmpty_cons, Bool.false_eq_true, ite_false,
      get_token]
    have hvalid : (initialize_state st).veri.is_valid_identifier w = false := by
      simp only [verifier.is_valid_identifier, initialize_state, verifier.clear]
      exact hid
    simp only [hvalid, Bool.not_false, ite_true]
    have h3 : ((initialize_state st).logg.log_error_invalid_identifier w
        ((initialize_state st).veri.identifier)).err_code
        = some error_code.invalid_identifier := by
      simp [initialize_state, logger.clear, logger.log_error_invalid_identifier,
        logger.lock_error]
    show (parse_finish _ _).1.logg.error = _
    simp only [logger.error]
    split
    · apply parse_finish_code_some
      simp [logger.log_error_key_not_given, logger.lock_error, h3]
    · exact parse_finish_code_some _ _ h3
  · decide

/-- Witness for C3 amended at the WrongCLI input. -/
theorem C3_amended_invalid_identifier_sticky_witness :
    (parse (basic_cl_parser_state ("identifier".toList) [pIntA])
        ("WrongCLI -a 3".toList)).1.logg.error
      = some error_code.invalid_identifier :=
  C3_amended_invalid_identifier_sticky.1
    (basic_cl_parser_state ("identifier".toList) [pIntA])
    ("WrongCLI -a 3".toList) ("WrongCLI".toList)
    ["-a".toList, "3".toList] rfl (by decide) (by decide)

theorem lock_error_msg (l : logger) (ec : error_code) :
    (l.lock_error ec).err_msg = l.err_msg := by
  simp only [logger.lock_error]
  split <;> rfl

/-!  ## Claim C5 -/

/-- C5: the error code is sticky first-wins: `lock_error` never replaces
a stored code (and stores a code when none is present); every
`log_error_*` call appends its message block but leaves a stored code
unchanged; while an error is latched, `parse()` returns the previous
result tuple without touching the descriptors, the verifier, the stream
or the logger; and `logger::clear` resets the code and the message. -/
theorem C5_sticky_first_error :
    (∀ (l : logger) (e : error_code) (ec : error_code),
      l.err_code = some e → (l.lock_error ec).err_code = some e) ∧
    (∀ (l : logger) (ec : error_code),
      l.err_code = none → (l.lock_error ec).err_code = some ec) ∧
    (∀ (l : logger) (e : error_code),
      l.err_code = some e →
        ((logger.log_error_identifier_not_given l).err_code = some e ∧
         (logger.log_error_identifier_not_given l).err_msg = l.err_msg ++ [log_event.identifier_not_given])) ∧
    (∀ (l : logger) (e : error_code) (key : key_t) (args : List (List Char)),
      l.err_code = some e →
        ((logger.log_error_incompatible_arguments l key args).err_code = some e ∧
         (logger.log_error_incompatible_arguments l key args).err_msg = l.err_msg ++ [log_event.incompatible_arguments key args])) ∧
    (∀ (l : logger) (e : error_code) (received correct : List Char),
      l.err_code = some e →
        ((logger.log_error_invalid_identifier l received correct).err_code = some e ∧
         (logger.log_error_invalid_identifier l received correct).err_msg = l.err_msg ++ [log_event.invalid_identifier received correct])) ∧
    (∀ (l : logger) (e : error_code),
      l.err_code = some e →
        ((logger.log_error_key_not_given l).err_code = some e ∧
         (logger.log_error_key_not_given l).err_msg = l.err_msg ++ [log_event.key_not_given])) ∧
    (∀ (l : logger) (e : error_code) (key : key_t),
      l.err_code = some e →
        ((logger.log_error_undefined_key l key).err_code = some e ∧
         (logger.log_error_undefined_key l key).err_msg = l.err_msg ++ [log_event.undefined_key key])) ∧
    (∀ (l : logger) (e : error_code) (args : List (List Char)),
      l.err_code = some e →
        ((logger.log_error_unparsed_arguments l args).err_code = some e ∧
         (logger.log_error_unparsed_arguments l args).err_msg = l.err_msg ++ [log_event.unparsed_arguments args])) ∧
    (∀ (l : logger) (e : error_code) (keys : List Char),
      l.err_code = some e →
        ((logger.log_error_wrong_complex_key l keys).err_code = some e ∧
         (logger.log_error_wrong_complex_key l keys).err_msg = l.err_msg ++ [log_event.wrong_complex_key keys])) ∧
    (∀ (l : logger) (e : error_code),
      l.err_code = some e →
        ((logger.log_error_required_key_not_given l).err_code = some e ∧
         (logger.log_error_required_key_not_given l).err_msg = l.err_msg ++ [log_event.required_key_not_given])) ∧
    (∀ (l : logger) (e : error_code) (key : key_t),
      l.err_code = some e →
        ((logger.log_error_duplicated_assignments l key).err_code = some e ∧
         (logger.log_error_duplicated_assignments l key).err_msg = l.err_msg ++ [log_event.duplicated_assignments key])) ∧
    (∀ (st : parser_state) (cmd : List Char) (e : error_code),
      st.logg.err_code = some e →
        ((parse st cmd).1.cont.data = st.cont.data ∧
         (parse st cmd).1.veri = st.veri ∧
         (parse st cmd).1.stream = st.stream ∧
         (parse st cmd).1.logg = st.logg ∧
         (∀ t, st.cont.cached_values = some t → (parse st cmd).2 = t))) ∧
    (∀ l : logger,
      (logger.clear l).err_code = none ∧ (logger.clear l).err_msg = []) := by
  refine ⟨?_, ?_, ?_, ?_, ?_, ?_, ?_, ?_, ?_, ?_, ?_, ?_, ?_⟩
  · intro l e ec h
    simp [logger.lock_error, h]
  · intro l ec h
    simp [logger.lock_error, h]
  · intro l e h
    constructor
    · simp [logger.log_error_identifier_not_given, logger.lock_error, h]
    · simp [logger.log_error_identifier_not_given, lock_error_msg]
  · intro l e key args h
    constructor
    · simp [logger.log_error_incompatible_arguments, logger.lock_error, h]
    · simp [logger.log_error_incompatible_arguments, lock_error_msg]
  · intro l e received correct h
    constructor
    · simp [logger.log_error_invalid_identifier, logger.lock_error, h]
    · simp [logger.log_error_invalid_identifier, lock_error_msg]
  · intro l e h
    constructor
    · simp [logger.log_error_key_not_given, logger.lock_error, h]
    · simp [logger.log_error_key_not_given, lock_error_msg]
  · intro l e key h
    constructor
    · simp [logger.log_error_undefined_key, logger.lock_error, h]
    · simp [logger.log_error_undefined_key, lock_error_msg]
  · intro l e args h
    constructor
    · simp [logger.log_error_unparsed_arguments, logger.lock_error, h]
    · simp [logger.log_error_unparsed_arguments, lock_error_msg]
  · intro l e keys h
    constructor
    · simp [logger.log_error_wrong_complex_key, logger.lock_error, h]
    · simp [logger.log_error_wrong_complex_key, lock_error_msg]
  · intro l e h
    constructor
    · simp [logger.log_error_required_key_not_given, logger.lock_error, h]
    · simp [logger.log_error_required_key_not_given, lock_error_msg]
  · intro l e key h
    constructor
    · simp [logger.log_error_duplicated_assignments, logger.lock_error, h]
    · simp [logger.log_error_duplicated_assignments, lock_error_msg]
  · intro st cmd e h
    have hcond : (st.logg.error).isSome = true := by simp [logger.error, h]
    simp only [parse, hcond, ite_true, parser_get]
    refine ⟨?_, by trivial, by trivial, by trivial, ?_⟩
    · show ((st.cont.values).1).data = st.cont.data
      cases hcv : st.cont.cached_values with
      | none => simp [container.values, hcv, container.update_cache]
      | some t => simp [container.values, hcv]
    · intro t ht
      show (st.cont.values).2 = t
      simp [container.values, ht]
  · intro l
    exact ⟨rfl, rfl⟩

/-- Witness for C5: a parser latched on invalid_identifier leaves its
logger untouched on a subsequent parse call. -/
theorem C5_sticky_first_error_witness :
    (parse ((parse (basic_cl_parser_state ("identifier".toList) [pIntA])
        ("WrongCLI -a 3".toList)).1) ("identifier -a 7".toList)).1.logg
      = ((parse (basic_cl_parser_state ("identifier".toList) [pIntA])
        ("WrongCLI -a 3".toList)).1).logg :=
  ((C5_sticky_first_error.2.2.2.2.2.2.2.2.2.2.2.1)
    ((parse (basic_cl_parser_state ("identifier".toList) [pIntA])
        ("WrongCLI -a 3".toList)).1)
    ("identifier -a 7".toList) error_code.invalid_identifier
    (by decide)).2.2.2.1


/-!  ## Claim C7 -/

/-- C7 counterexample: for an Optional bool descriptor, the argument 2
(a nonzero integer word) does not yield true cleanly: the noboolalpha
integer retry accepts only 0 and 1, so the descriptor is left in the
failed state and the whole parse reports incompatible_argument. -/
theorem C7_nonzero_integer_counterexample :
    (((assign_by_idx 0 [("2".toList)] [pBoolA] []
        { identifier := "identifier".toList, switches := 0,
          fail := false, bad := false }).1.headD pBoolA).fail = true) ∧
    ((parse (basic_cl_parser_state ("identifier".toList) [pBoolA])
        ("identifier -a 2".toList)).1.logg.error
      = some error_code.incompatible_argument) := by
  exact ⟨by decide, by decide⟩

/-- C7 amended: for a boolean-typed descriptor, assignment with zero
argument words stores true; with argument words present it first
attempts a boolean-word parse (true/false) and on failure clears the
fail state and retries the remaining text as an integer parse in which 0
means false and 1 means true, while any other integer (and any
unparsable text) leaves the descriptor in the failed state.  In
particular -a, -a 1 and -a true all yield true for an Optional bool
descriptor. -/
theorem C7_amended_boolean_assignment :
    (∀ (p : basic_cl_param) (stream : List Char),
      p.vtype = VType.tBool → p.fail = false →
      ((assign_one p [] stream).1.val = some (PValue.vBool true) ∧
       (assign_one p [] stream).1.fail = false ∧
       (assign_one p [] stream).2 = stream)) ∧
    ((assign_one pBoolA [("1".toList)] []).1.val = some (PValue.vBool true) ∧
     (assign_one pBoolA [("1".toList)] []).1.fail = false) ∧
    ((assign_one pBoolA [("true".toList)] []).1.val = some (PValue.vBool true) ∧
     (assign_one pBoolA [("true".toList)] []).1.fail = false) ∧
    ((assign_one pBoolA [("0".toList)] []).1.val = some (PValue.vBool false) ∧
     (assign_one pBoolA [("0".toList)] []).1.fail = false) ∧
    ((assign_one pBoolA [("2".toList)] []).1.fail = true) ∧
    ((assign_one pBoolA [("xyz".toList)] []).1.fail = true) ∧
    ((parse (basic_cl_parser_state ("identifier".toList) [pBoolA])
        ("identifier -a".toList)).2 = [PValue.vBool true]) ∧
    ((parse (basic_cl_parser_state ("identifier".toList) [pBoolA])
        ("identifier -a 1".toList)).2 = [PValue.vBool true]) ∧
    ((parse (basic_cl_parser_state ("identifier".toList) [pBoolA])
        ("identifier -a true".toList)).2 = [PValue.vBool true]) := by
  refine ⟨?_, by decide, by decide, by decide, by decide, by decide,
    by decide, by decide, by decide⟩
  intro p stream hv hf
  simp [assign_one, hv, assign_bool, basic_cl_param.assign, hf]

/-- Witness for C7 amended at the Optional bool descriptor for 'a'. -/
theorem C7_amended_boolean_assignment_witness :
    (assign_one pBoolA [] []).1.val = some (PValue.vBool true) :=
  (C7_amended_boolean_assignment.1 pBoolA [] rfl rfl).1


/-- A default descriptor used only as the `List.getD` fallback in
out-of-range positions of characterization statements. -/
def param_default : basic_cl_param :=
  { key_chars := [], key_strs := [], vtype := VType.tInt, required := false,
    defval := none, val := none, fail := false }

theorem testBit_one_shiftLeft (i j : Nat) :
    (1 <<< i).testBit j = decide (i = j) := by
  rw [Nat.shiftLeft_eq, one_mul, Nat.testBit_two_pow]

theorem required_mask_bit :
    ∀ (l : List basic_cl_param) (m i0 j : Nat),
      ((for_each_idx_from l m i0 (fun m i p =>
          if p.required && !p.has_defval then m ||| (1 <<< i) else m)).testBit j
        = true) ↔
      (m.testBit j = true ∨ ∃ k, k < l.length ∧ i0 + k = j ∧
        ((l.getD k param_default).required
          && !((l.getD k param_default).has_defval)) = true) := by
  intro l
  induction l with
  | nil =>
    intro m i0 j
    simp [for_each_idx_from_nil]
  | cons p l ih =>
    intro m i0 j
    rw [for_each_idx_from_cons, ih]
    by_cases hc : (p.required && !p.has_defval) = true
    · rw [if_pos hc]
      constructor
      · rintro (hm | ⟨k, hk, hij, hck⟩)
        · rw [Nat.testBit_lor, Bool.or_eq_true, testBit_one_shiftLeft] at hm
          rcases hm with hm | hij
          · exact Or.inl hm
          · have hij2 : i0 = j := of_decide_eq_true hij
            exact Or.inr ⟨0, by simp only [List.length_cons]; omega,
              by omega, by simpa using hc⟩
        · exact Or.inr ⟨k + 1, by simp only [List.length_cons]; omega,
            by omega, by simpa using hck⟩
      · rintro (hm | ⟨k, hk, hij, hck⟩)
        · left
          rw [Nat.testBit_lor, Bool.or_eq_true]
          exact Or.inl hm
        · match k with
          | 0 =>
            left
            rw [Nat.testBit_lor, Bool.or_eq_true, testBit_one_shiftLeft]
            right
            exact decide_eq_true (by omega)
          | k + 1 =>
            right
            refine ⟨k, ?_, by omega, by simpa using hck⟩
            have : (p :: l).length = l.length + 1 := List.length_cons p l
            omega
    · rw [if_neg hc]
      constructor
      · rintro (hm | ⟨k, hk, hij, hck⟩)
        · exact Or.inl hm
        · exact Or.inr ⟨k + 1, by simp only [List.length_cons]; omega,
            by omega, by simpa using hck⟩
      · rintro (hm | ⟨k, hk, hij, hck⟩)
        · exact Or.inl hm
        · match k with
          | 0 =>
            exact absurd (by simpa using hck) hc
          | k + 1 =>
            refine Or.inr ⟨k, ?_, by omega, by simpa using hck⟩
            have : (p :: l).length = l.length + 1 := List.length_cons p l
            omega

theorem land_eq_left_iff (a b : Nat) :
    (Nat.land a b == a) = true ↔
      (∀ j, a.testBit j = true → b.testBit j = true) := by
  rw [beq_iff_eq]
  constructor
  · intro h j hj
    have h2 : (a &&& b).testBit j = a.testBit j := by
      show (Nat.land a b).testBit j = a.testBit j
      rw [h]
    rw [Nat.testBit_land, hj] at h2
    simpa using h2
  · intro h
    apply Nat.eq_of_testBit_eq
    intro j
    show (a &&& b).testBit j = a.testBit j
    rw [Nat.testBit_land]
    cases ha : a.testBit j
    · simp
    · simp [h j ha]


/-!  ## Claim C6 -/

/-- C6: after the token loop, satisfies_required holds iff every Required
descriptor lacking a default value has its assignment bit set (the
required-subset bitset ANDed with the assignment bitset equals the
required-subset bitset); consequently a Required descriptor with a
default value that is omitted from the command line does not trigger
required_key_not_given, and its result slot equals the default. -/
theorem C6_satisfies_required_characterization :
    (∀ (params : List basic_cl_param) (switches : Nat),
      satisfies_required params switches = true ↔
        (∀ i, i < params.length →
          (params.getD i param_default).required = true →
          (params.getD i param_default).has_defval = false →
          switches.testBit i = true)) ∧
    ((parse (basic_cl_parser_state ("identifier".toList) [pReqIntDef3])
        ("identifier".toList)).1.logg.error = none) ∧
    ((parse (basic_cl_parser_state ("identifier".toList) [pReqIntDef3])
        ("identifier".toList)).2 = [PValue.vInt 3]) := by
  refine ⟨?_, by decide, by decide⟩
  intro params switches
  show ((Nat.land (required_mask params) switches == required_mask params) = true) ↔ _
  rw [land_eq_left_iff]
  constructor
  · intro h i hi hreq hdef
    apply h i
    show ((for_each_idx_from params 0 0 (fun m i p =>
        if p.required && !p.has_defval then m ||| (1 <<< i) else m)).testBit i
      = true)
    rw [required_mask_bit]
    refine Or.inr ⟨i, hi, by omega, ?_⟩
    rw [hreq, hdef]
    rfl
  · intro h j hj
    have hj2 : ((for_each_idx_from params 0 0 (fun m i p =>
        if p.required && !p.has_defval then m ||| (1 <<< i) else m)).testBit j
      = true) := hj
    rw [required_mask_bit] at hj2
    rcases hj2 with h0 | ⟨k, hk, hkj, hck⟩
    · simp at h0
    · have hkj2 : k = j := by omega
      subst hkj2
      have h12 := hck
      simp only [Bool.and_eq_true, Bool.not_eq_true'] at h12
      exact h k hk h12.1 h12.2

/-- Witness for C6 at a parser with one Required int descriptor without
default whose bit is set. -/
theorem C6_satisfies_required_characterization_witness :
    satisfies_required
      [{ pIntA with required := true }] 1 = true :=
  (C6_satisfies_required_characterization.1
      [{ pIntA with required := true }] 1).mpr
    (by decide)


/-!  ## Key-field preservation under assignment -/

theorem key_fields_assign (p : basic_cl_param) (v : PValue) :
    (p.assign v).key_chars = p.key_chars ∧ (p.assign v).key_strs = p.key_strs := by
  simp only [basic_cl_param.assign]
  split <;> exact ⟨rfl, rfl⟩

theorem key_fields_extract_int (p : basic_cl_param) (s : List Char) :
    ((extract_int p s).1.key_chars = p.key_chars ∧
     (extract_int p s).1.key_strs = p.key_strs) := by
  simp only [extract_int]
  split <;> exact ⟨rfl, rfl⟩

theorem key_fields_extract_bool_alpha (p : basic_cl_param) (s : List Char) :
    ((extract_bool_alpha p s).1.key_chars = p.key_chars ∧
     (extract_bool_alpha p s).1.key_strs = p.key_strs) := by
  simp only [extract_bool_alpha]
  split <;> exact ⟨rfl, rfl⟩

theorem key_fields_extract_bool_noalpha (p : basic_cl_param) (s : List Char) :
    ((extract_bool_noalpha p s).1.key_chars = p.key_chars ∧
     (extract_bool_noalpha p s).1.key_strs = p.key_strs) := by
  simp only [extract_bool_noalpha]
  split <;> exact ⟨rfl, rfl⟩

theorem key_fields_assign_one (p : basic_cl_param) (args : List (List Char))
    (stream : List Char) :
    ((assign_one p args stream).1.key_chars = p.key_chars ∧
     (assign_one p args stream).1.key_strs = p.key_strs) := by
  cases hv : p.vtype with
  | tBool =>
    have he : assign_one p args stream = assign_bool p args stream := by
      unfold assign_one
      rw [hv]
    rw [he]
    simp only [assign_bool]
    split
    · exact key_fields_assign p (PValue.vBool true)
    · split
      · have h1 := key_fields_extract_bool_alpha p (stream_args stream args)
        have h2 := key_fields_extract_bool_noalpha
          ((extract_bool_alpha p (stream_args stream args)).1.clear)
          ((extract_bool_alpha p (stream_args stream args)).2)
        have h1c : ((extract_bool_alpha p (stream_args stream args)).1.clear).key_chars
            = (extract_bool_alpha p (stream_args stream args)).1.key_chars := rfl
        have h1s : ((extract_bool_alpha p (stream_args stream args)).1.clear).key_strs
            = (extract_bool_alpha p (stream_args stream args)).1.key_strs := rfl
        exact ⟨(h2.1.trans h1c).trans h1.1, (h2.2.trans h1s).trans h1.2⟩
      · exact key_fields_extract_bool_alpha p (stream_args stream args)
  | tInt =>
    have he : assign_one p args stream = assign_generic p args stream := by
      unfold assign_one
      rw [hv]
    rw [he]
    exact key_fields_extract_int p (stream_args stream args)
  | tStr =>
    have he : assign_one p args stream = assign_str p args stream := by
      unfold assign_one
      rw [hv]
    rw [he]
    exact key_fields_assign p _

theorem contains_assign_one (p : basic_cl_param) (args : List (List Char))
    (stream : List Char) (k : key_t) :
    ((assign_one p args stream).1).contains k = p.contains k := by
  cases k with
  | short c =>
    show ((assign_one p args stream).1).key_chars.contains c
        = p.key_chars.contains c
    rw [(key_fields_assign_one p args stream).1]
  | long str =>
    show ((assign_one p args stream).1).key_strs.contains str
        = p.key_strs.contains str
    rw [(key_fields_assign_one p args stream).2]

/-!  ## No-match fold lemmas -/

theorem for_each_idx_from_skip {α : Type} (key : key_t)
    (F : α → Nat → basic_cl_param → α) :
    ∀ (params : List basic_cl_param) (a : α) (i0 : Nat),
      (∀ p ∈ params, p.contains key = false) →
      for_each_idx_from params a i0
        (fun a i p => if p.contains key then F a i p else a) = a := by
  intro params
  induction params with
  | nil => intro a i0 _; rfl
  | cons p l ih =>
    intro a i0 h
    rw [for_each_idx_from_cons]
    have hp : p.contains key = false := h p (List.mem_cons_self p l)
    simp only [hp, Bool.false_eq_true, ite_false]
    exact ih a (i0 + 1) (fun q hq => h q (List.mem_cons_of_mem p hq))

theorem is_valid_single_key_impl_no_match (key : key_t) :
    ∀ (params : List basic_cl_param),
      (∀ p ∈ params, p.contains key = false) →
      is_valid_single_key_impl key params = false := by
  have aux : ∀ (params : List basic_cl_param) (acc : Bool),
      (∀ p ∈ params, p.contains key = false) →
      params.foldl (fun is p => if p.contains key then true else is) acc = acc := by
    intro params
    induction params with
    | nil => intro acc _; rfl
    | cons p l ih =>
      intro acc h
      rw [List.foldl_cons]
      have hp : p.contains key = false := h p (List.mem_cons_self p l)
      simp only [hp, Bool.false_eq_true, ite_false]
      exact ih acc (fun q hq => h q (List.mem_cons_of_mem p hq))
  intro params h
  exact aux params false h

theorem is_duplicated_assignment_impl_no_match (key : key_t)
    (params : List basic_cl_param) (switches : Nat)
    (h : ∀ p ∈ params, p.contains key = false) :
    is_duplicated_assignment_impl key params switches = false :=
  for_each_idx_from_skip key (fun _ i _ => switches.testBit i) params false 0 h

theorem set_assigned_impl_no_match (key : key_t)
    (params : List basic_cl_param) (switches : Nat)
    (h : ∀ p ∈ params, p.contains key = false) :
    set_assigned_impl key params switches = switches :=
  for_each_idx_from_skip key (fun sw i _ => sw ||| (1 <<< i)) params switches 0 h

theorem getidx_no_match (key : key_t) (params : List basic_cl_param)
    (h : ∀ p ∈ params, p.contains key = false) :
    getidx key params = 0 :=
  for_each_idx_from_skip key (fun _ i _ => i) params 0 0 h


/-!  ## Claim C10 -/

/-- C10: when a syntactically valid key matches no declared descriptor,
the parser logs undefined_key but still invokes the assignment step: the
key-to-index lookup returns 0, so the following argument words are fed
into the first declared descriptor's conversion (possibly mutating its
value or fail flag), while no assignment bit is set for the unknown key.
The concrete instance: parsing identifier -z 5 against a parser declaring
only the int descriptor 'a' reports undefined_key yet stores 5 into that
descriptor. -/
theorem C10_undefined_key_feeds_first_descriptor :
    (∀ (st : parser_state) (key : key_t) (args : List (List Char))
      (p0 : basic_cl_param) (rest : List basic_cl_param),
      st.cont.data = p0 :: rest →
      (∀ p ∈ st.cont.data, p.contains key = false) →
      st.logg.err_code = none →
      ((parse_single_key st key args).logg.err_code
          = some error_code.undefined_key ∧
       (parse_single_key st key args).veri.switches = st.veri.switches ∧
       (parse_single_key st key args).cont.data
          = (assign_one p0 args st.stream).1 :: rest)) ∧
    ((parse (basic_cl_parser_state ("identifier".toList) [pIntA])
        ("identifier -z 5".toList)).1.logg.error
      = some error_code.undefined_key) ∧
    ((parse (basic_cl_parser_state ("identifier".toList) [pIntA])
        ("identifier -z 5".toList)).1.cont.data.map basic_cl_param.val
      = [some (PValue.vInt 5)]) := by
  refine ⟨?_, by decide, by decide⟩
  intro st key args p0 rest hd h hcode
  have hvalid : is_valid_single_key_impl key st.cont.data = false :=
    is_valid_single_key_impl_no_match key st.cont.data h
  have hdup : ∀ sw, is_duplicated_assignment_impl key st.cont.data sw = false :=
    fun sw => is_duplicated_assignment_impl_no_match key st.cont.data sw h
  have hgi : getidx key st.cont.data = 0 :=
    getidx_no_match key st.cont.data h
  have hrest2 : ∀ p ∈ (assign_one p0 args st.stream).1 :: rest,
      p.contains key = false := by
    intro p hp
    rcases List.mem_cons.mp hp with hp0 | hpr
    · rw [hp0, contains_assign_one]
      exact h p0 (by rw [hd]; exact List.mem_cons_self p0 rest)
    · exact h p (by rw [hd]; exact List.mem_cons_of_mem p0 hpr)
  have hset : ∀ sw, set_assigned_impl key
      ((assign_one p0 args st.stream).1 :: rest) sw = sw :=
    fun sw => set_assigned_impl_no_match key _ sw hrest2
  dsimp only [parse_single_key]
  rw [hvalid]
  simp only [Bool.not_false, ite_true]
  dsimp only [verifier.is_duplicated_assignment]
  rw [hdup]
  simp only [Bool.false_eq_true, ite_false]
  dsimp only [assign_single, assign_by_idx]
  rw [hgi, hd]
  simp only [List.get?_cons_zero]
  dsimp only [verifier.set_assigned, verifier.mark_fail]
  rw [List.set]
  rw [hset]
  repeat' split
  all_goals refine ⟨?_, rfl, rfl⟩
  all_goals
    simp [logger.log_error_undefined_key, logger.log_error_incompatible_arguments,
      logger.log_error_unparsed_arguments, logger.lock_error, hcode]



/-- Witness for C10 at the undefined short key 'z' with one int
descriptor declared. -/
theorem C10_undefined_key_feeds_first_descriptor_witness :
    (parse_single_key (basic_cl_parser_state ("identifier".toList) [pIntA])
        (key_t.short (Char.ofNat 122)) [("5".toList)]).logg.err_code
      = some error_code.undefined_key :=
  (C10_undefined_key_feeds_first_descriptor.1
    (basic_cl_parser_state ("identifier".toList) [pIntA])
    (key_t.short (Char.ofNat 122)) [("5".toList)] pIntA [] rfl
    (by decide) rfl).1


/-!  ## Generic bit-setting fold characterization -/

theorem mask_fold_bit (cond : basic_cl_param → Bool) :
    ∀ (l : List basic_cl_param) (m i0 j : Nat),
      ((for_each_idx_from l m i0 (fun m i p =>
          if cond p then m ||| (1 <<< i) else m)).testBit j = true) ↔
      (m.testBit j = true ∨ ∃ k, k < l.length ∧ i0 + k = j ∧
        cond (l.getD k param_default) = true) := by
  intro l
  induction l with
  | nil =>
    intro m i0 j
    simp [for_each_idx_from_nil]
  | cons p l ih =>
    intro m i0 j
    rw [for_each_idx_from_cons, ih]
    by_cases hc : cond p = true
    · rw [if_pos hc]
      constructor
      · rintro (hm | ⟨k, hk, hij, hck⟩)
        · rw [Nat.testBit_lor, Bool.or_eq_true, testBit_one_shiftLeft] at hm
          rcases hm with hm | hij
          · exact Or.inl hm
          · have hij2 : i0 = j := of_decide_eq_true hij
            exact Or.inr ⟨0, by simp only [List.length_cons]; omega,
              by omega, by simpa using hc⟩
        · exact Or.inr ⟨k + 1, by simp only [List.length_cons]; omega,
            by omega, by simpa using hck⟩
      · rintro (hm | ⟨k, hk, hij, hck⟩)
        · left
          rw [Nat.testBit_lor, Bool.or_eq_true]
          exact Or.inl hm
        · match k with
          | 0 =>
            left
            rw [Nat.testBit_lor, Bool.or_eq_true, testBit_one_shiftLeft]
            right
            exact decide_eq_true (by omega)
          | k + 1 =>
            right
            refine ⟨k, ?_, by omega, by simpa using hck⟩
            have : (p :: l).length = l.length + 1 := List.length_cons p l
            omega
    · rw [if_neg hc]
      constructor
      · rintro (hm | ⟨k, hk, hij, hck⟩)
        · exact Or.inl hm
        · exact Or.inr ⟨k + 1, by simp only [List.length_cons]; omega,
            by omega, by simpa using hck⟩
      · rintro (hm | ⟨k, hk, hij, hck⟩)
        · exact Or.inl hm
        · match k with
          | 0 =>
            exact absurd (by simpa using hck) hc
          | k + 1 =>
            refine Or.inr ⟨k, ?_, by omega, by simpa using hck⟩
            have : (p :: l).length = l.length + 1 := List.length_cons p l
            omega

/-!  ## Single-character duplicate check characterization -/

theorem isdup_fold_char (c : Char) (tmp : Nat) :
    ∀ (l : List basic_cl_param) (acc : Bool) (i0 : Nat),
      (l.countP (fun p => p.contains (key_t.short c))) ≤ 1 →
      ((for_each_idx_from l acc i0 (fun is i p =>
          if p.contains (key_t.short c) then tmp.testBit i else is)) = true ↔
        ((acc = true ∧ ∀ p ∈ l, p.contains (key_t.short c) = false) ∨
         ∃ k, k < l.length ∧
           (l.getD k param_default).contains (key_t.short c) = true ∧
           tmp.testBit (i0 + k) = true)) := by
  intro l
  induction l with
  | nil =>
    intro acc i0 _
    simp [for_each_idx_from_nil]
  | cons p l ih =>
    intro acc i0 hdisj
    rw [for_each_idx_from_cons]
    by_cases hp : p.contains (key_t.short c) = true
    · rw [if_pos hp]
      have hl0 : l.countP (fun p => p.contains (key_t.short c)) = 0 := by
        rw [List.countP_cons, hp] at hdisj
        simpa using hdisj
      have hlnone : ∀ q ∈ l, q.contains (key_t.short c) = false := by
        intro q hq
        have := List.countP_eq_zero.mp hl0 q hq
        simpa using this
      rw [for_each_idx_from_skip (key_t.short c)
        (fun _ i _ => tmp.testBit i) l (tmp.testBit i0) (i0 + 1) hlnone]
      constructor
      · intro hbit
        exact Or.inr ⟨0, by simp, by simpa using hp, by simpa using hbit⟩
      · rintro (⟨_, hnone⟩ | ⟨k, hk, hck, hbit⟩)
        · exact absurd hp (by simp [hnone p (List.mem_cons_self p l)])
        · match k with
          | 0 => simpa using hbit
          | k + 1 =>
            have : (l.getD k param_default).contains (key_t.short c) = false := by
              by_cases hkl : k < l.length
              · exact hlnone _ (by
                  rw [List.getD_eq_get l param_default hkl]
                  exact List.get_mem l k hkl)
              · rw [List.getD_eq_default _ _ (by omega)]
                rfl
            rw [List.getD_cons_succ] at hck
            rw [this] at hck
            exact absurd hck (by simp)
    · rw [if_neg hp]
      have hdisj2 : l.countP (fun p => p.contains (key_t.short c)) ≤ 1 := by
        rw [List.countP_cons] at hdisj
        omega
      rw [ih acc (i0 + 1) hdisj2]
      constructor
      · rintro (⟨hacc, hnone⟩ | ⟨k, hk, hck, hbit⟩)
        · refine Or.inl ⟨hacc, ?_⟩
          intro q hq
          rcases List.mem_cons.mp hq with h0 | hq2
          · rw [h0]; simpa using hp
          · exact hnone q hq2
        · exact Or.inr ⟨k + 1, by simp only [List.length_cons]; omega,
            by simpa using hck, by
              have : i0 + (k + 1) = i0 + 1 + k := by omega
              rw [this]; exact hbit⟩
      · rintro (⟨hacc, hnone⟩ | ⟨k, hk, hck, hbit⟩)
        · exact Or.inl ⟨hacc, fun q hq => hnone q (List.mem_cons_of_mem p hq)⟩
        · match k with
          | 0 => exact absurd (by simpa using hck) hp
          | k + 1 =>
            refine Or.inr ⟨k, ?_, by simpa using hck, by
              have : i0 + 1 + k = i0 + (k + 1) := by omega
              rw [this]; exact hbit⟩
            have : (p :: l).length = l.length + 1 := List.length_cons p l
            omega


theorem exists_idx_iff_mem (l : List basic_cl_param) (P : basic_cl_param → Prop) :
    (∃ i, i < l.length ∧ P (l.getD i param_default)) ↔ (∃ p ∈ l, P p) := by
  constructor
  · rintro ⟨i, hi, hP⟩
    refine ⟨l.getD i param_default, ?_, hP⟩
    rw [List.getD_eq_get l param_default hi]
    exact List.get_mem l i hi
  · rintro ⟨p, hp, hP⟩
    obtain ⟨n, hn⟩ := List.mem_iff_get.mp hp
    refine ⟨n.1, n.2, ?_⟩
    rw [List.getD_eq_get l param_default n.2]
    exact hn.symm ▸ hP

theorem isdup_char_mem (c : Char) (tmp : Nat) (params : List basic_cl_param)
    (done : List Char)
    (hdisj : (params.countP (fun p => p.contains (key_t.short c))) ≤ 1)
    (htmp : ∀ i, i < params.length →
      ((tmp.testBit i = true) ↔ ∃ c0 ∈ done,
        (params.getD i param_default).contains (key_t.short c0) = true)) :
    (is_duplicated_assignment_impl (key_t.short c) params tmp = true ↔
      ∃ p ∈ params, p.contains (key_t.short c) = true ∧
        ∃ c0 ∈ done, p.contains (key_t.short c0) = true) := by
  show ((for_each_idx_from params false 0 (fun is i p =>
      if p.contains (key_t.short c) then tmp.testBit i else is)) = true ↔ _)
  rw [isdup_fold_char c tmp params false 0 hdisj]
  constructor
  · rintro (⟨hfalse, _⟩ | ⟨k, hk, hck, hbit⟩)
    · exact absurd hfalse (by simp)
    · rw [Nat.zero_add] at hbit
      have hmem := (htmp k hk).mp hbit
      exact (exists_idx_iff_mem params _).mp ⟨k, hk, hck, hmem⟩
  · intro hmem
    obtain ⟨k, hk, hck, hc0⟩ := (exists_idx_iff_mem params
      (fun p => p.contains (key_t.short c) = true ∧
        ∃ c0 ∈ done, p.contains (key_t.short c0) = true)).mpr hmem
    refine Or.inr ⟨k, hk, hck, ?_⟩
    rw [Nat.zero_add]
    exact (htmp k hk).mpr hc0

theorem set_assigned_mem_bit (c : Char) (tmp : Nat)
    (params : List basic_cl_param) (done : List Char)
    (htmp : ∀ i, i < params.length →
      ((tmp.testBit i = true) ↔ ∃ c0 ∈ done,
        (params.getD i param_default).contains (key_t.short c0) = true)) :
    ∀ i, i < params.length →
      (((set_assigned_impl (key_t.short c) params tmp).testBit i = true) ↔
        ∃ c0 ∈ done ++ [c],
          (params.getD i param_default).contains (key_t.short c0) = true) := by
  intro i hi
  show ((for_each_idx_from params tmp 0 (fun sw i p =>
      if p.contains (key_t.short c) then sw ||| (1 <<< i) else sw)).testBit i
    = true) ↔ _
  rw [mask_fold_bit (fun p => p.contains (key_t.short c)) params tmp 0 i]
  rw [htmp i hi]
  constructor
  · rintro (⟨c0, hc0, hcc⟩ | ⟨k, hk, hki, hck⟩)
    · exact ⟨c0, List.mem_append_left _ hc0, hcc⟩
    · have hki2 : k = i := by omega
      subst hki2
      exact ⟨c, List.mem_append_right _ (List.mem_singleton_self c), hck⟩
  · rintro ⟨c0, hc0, hcc⟩
    rcases List.mem_append.mp hc0 with hdone | hcx
    · exact Or.inl ⟨c0, hdone, hcc⟩
    · rw [List.mem_singleton] at hcx
      subst hcx
      exact Or.inr ⟨i, hi, by omega, hcc⟩


theorem complex_fold_char :
    ∀ (keys : List Char) (params : List basic_cl_param)
      (disj : ∀ c, (params.countP (fun p => p.contains (key_t.short c))) ≤ 1)
      (acc : Bool) (tmp : Nat) (done : List Char)
      (htmp : ∀ i, i < params.length →
        ((tmp.testBit i = true) ↔ ∃ c0 ∈ done,
          (params.getD i param_default).contains (key_t.short c0) = true)),
      (((keys.foldl
          (fun (acc2 : Bool × Nat) c =>
            let is := is_duplicated_assignment_impl (key_t.short c) params acc2.2
            let tmp2 := set_assigned_impl (key_t.short c) params acc2.2
            (acc2.1 || is, tmp2))
          (acc, tmp)).1 = true) ↔
        (acc = true ∨ ∃ b, b < keys.length ∧ ∃ p ∈ params,
          p.contains (key_t.short (keys.getD b stream_delim)) = true ∧
          ∃ c0 ∈ done ++ keys.take b, p.contains (key_t.short c0) = true)) := by
  intro keys
  induction keys with
  | nil =>
    intro params disj acc tmp done htmp
    simp
  | cons c keys ih =>
    intro params disj acc tmp done htmp
    rw [List.foldl_cons]
    rw [ih params disj (acc || is_duplicated_assignment_impl (key_t.short c) params tmp)
      (set_assigned_impl (key_t.short c) params tmp) (done ++ [c])
      (set_assigned_mem_bit c tmp params done htmp)]
    rw [Bool.or_eq_true]
    rw [isdup_char_mem c tmp params done (disj c) htmp]
    constructor
    · rintro ((hacc | hdup) | ⟨b, hb, p, hp, hcb, c0, hc0, hcc⟩)
      · exact Or.inl hacc
      · obtain ⟨p, hp, hcc, c0, hc0, hc0c⟩ := hdup
        refine Or.inr ⟨0, by simp, p, hp, by simpa using hcc, c0, ?_, hc0c⟩
        simpa using hc0
      · refine Or.inr ⟨b + 1, by simp only [List.length_cons]; omega,
          p, hp, by simpa using hcb, c0, ?_, hcc⟩
        rw [List.take_succ_cons]
        rcases List.mem_append.mp hc0 with hdc | htk
        · rcases List.mem_append.mp hdc with hd | hc1
          · exact List.mem_append_left _ hd
          · rw [List.mem_singleton] at hc1
            subst hc1
            exact List.mem_append_right _ (List.mem_cons_self _ _)
        · exact List.mem_append_right _ (List.mem_cons_of_mem _ htk)
    · rintro (hacc | ⟨b, hb, p, hp, hcb, c0, hc0, hcc⟩)
      · exact Or.inl (Or.inl hacc)
      · match b with
        | 0 =>
          refine Or.inl (Or.inr ⟨p, hp, by simpa using hcb, c0, ?_, hcc⟩)
          simpa using hc0
        | b + 1 =>
          refine Or.inr ⟨b, ?_, p, hp, by simpa using hcb, c0, ?_, hcc⟩
          · have : (c :: keys).length = keys.length + 1 := List.length_cons c keys
            omega
          · rw [List.take_succ_cons] at hc0
            rcases List.mem_append.mp hc0 with hd | htk
            · exact List.mem_append_left _ (List.mem_append_left _ hd)
            · rcases List.mem_cons.mp htk with hc1 | htk2
              · subst hc1
                exact List.mem_append_left _
                  (List.mem_append_right _ (List.mem_singleton_self _))
              · exact List.mem_append_right _ htk2


/-!  ## Claim C4 -/

/-- C4 counterexample: with the switches bitset recording descriptor 0
('a') as assigned by an earlier token (bit 0 of the value 1 is set), the
claim predicts is_duplicated_complex_assignment on the complex key ab is
true; the code returns false, because its scratch bitset is seeded from
zero, not from the current assignment state.  End to end, the command
line identifier -a -ab parses without any error. -/
theorem C4_cross_token_duplicate_counterexample :
    (is_duplicated_complex_assignment 1 [Char.ofNat 97, Char.ofNat 98]
        [pBoolA, pBoolB] = false) ∧
    (Nat.testBit 1 0 = true) ∧
    (pBoolA.contains (key_t.short (Char.ofNat 97)) = true) ∧
    ([pBoolA, pBoolB].getD 0 param_default = pBoolA) ∧
    ((parse (basic_cl_parser_state ("identifier".toList) [pBoolA, pBoolB])
        ("identifier -a -ab".toList)).1.logg.error = none) := by
  exact ⟨by decide, by decide, by decide, by decide, by decide⟩

/-- C4 amended: is_duplicated_complex_assignment ignores the current
assignment state entirely (the scratch bitset is seeded from zero): for
parameter sets in which each character is bound to at most one
descriptor, it returns true iff some character of the complex key
targets a descriptor already targeted by an earlier character of the
same token.  In particular -abcabc with a,b,c boolean yields
duplicated_assignments. -/
theorem C4_amended_scratch_seeded_from_zero :
    (∀ (switches : Nat) (keys : List Char) (params : List basic_cl_param),
      (∀ c, (params.countP (fun p => p.contains (key_t.short c))) ≤ 1) →
      (is_duplicated_complex_assignment switches keys params = true ↔
        ∃ b, b < keys.length ∧ ∃ p ∈ params,
          p.contains (key_t.short (keys.getD b stream_delim)) = true ∧
          ∃ c0 ∈ keys.take b, p.contains (key_t.short c0) = true)) ∧
    (is_duplicated_complex_assignment 0 ("abcabc".toList)
        [pBoolA, pBoolB, pBoolC] = true) ∧
    ((parse (basic_cl_parser_state ("identifier".toList) [pBoolA, pBoolB, pBoolC])
        ("identifier -abcabc".toList)).1.logg.error
      = some error_code.duplicated_assignments) := by
  refine ⟨?_, by decide, by decide⟩
  intro switches keys params hdisj
  unfold is_duplicated_complex_assignment
  rw [complex_fold_char keys params hdisj false 0 []
    (by intro i hi; simp [Nat.zero_testBit])]
  simp only [Bool.false_eq_true, false_or, List.nil_append]

/-- Witness for C4 amended: the complex key aa with one boolean
descriptor (and a nonzero switches value, which the function ignores)
duplicates within the token. -/
theorem C4_amended_scratch_seeded_from_zero_witness :
    is_duplicated_complex_assignment 5 [Char.ofNat 97, Char.ofNat 97]
      [pBoolA] = true :=
  (C4_amended_scratch_seeded_from_zero.1 5 [Char.ofNat 97, Char.ofNat 97]
      [pBoolA] (fun c => List.countP_le_length _)).mpr
    ⟨1, by decide, pBoolA, by decide, by decide, Char.ofNat 97,
      by decide, by decide⟩


end Gclp